import Mathlib

/-!
A shallow embedding of `src/chaiverse/dev/model/reward_model.py`
(repository chai-research/chai-guanaco).

The module defines an abstract reward-model trainer (`BaseRewardTrainer`)
and two task variants (regression and single-label classification).  We
embed the data model (fold mappings of datasets with a "labels" column),
the classification label formatting (`_format_data_by_training_task` and
`_format_one_hot_labels`), the training-configuration marshaling
(`training_config`), the training-engine binding
(`instantiate_reward_trainer`), the `save` path fallback and the `fit`
pipeline.  Python exceptions are embedded with `Except PyError`; machine
floats never undergo arithmetic here, so numeric hyperparameters are
carried as exact values.
-/

namespace Chaiverse

/-- Python exception classes that the embedded code can raise. -/
inductive PyError where
  | notImplementedError
  | assertionError
  | indexError
  | keyError
  | typeError
  | valueError
deriving DecidableEq

/-- Content of a dataset's "labels" column as `np.array(df['labels'])`
sees it: either a flat sequence of scalars (`ndim == 1`) or a
two-dimensional (already one-hot) one (`ndim == 2`, rows assumed
rectangular).  Label values in this module are integral. -/
inductive Labels where
  | flat (values : List Int)
  | multi (rows : List (List Int))
deriving DecidableEq

/-- The `ndim` of `np.array(df['labels'])`. -/
def Labels.ndim : Labels → Nat
  | .flat _ => 1
  | .multi _ => 2

/-- A tabular dataset (one fold), reduced to what the trainer touches:
the "labels" column (its values and its dtype tag) and an opaque stand-in
`other` for the remaining columns, which the trainer never reads or
writes. -/
structure Dataset where
  labels : Labels
  labelsDtype : String
  other : Nat
deriving DecidableEq

/-- A fold mapping (`DatasetDict`): fold name -> dataset.  Embedded as an
association list; Python dict keys are distinct, which theorems assume
via `Nodup` where it matters. -/
abbrev FoldMap := List (String × Dataset)

/-- Python dict read `m[k]` / `m.get(k, None)`: the value stored at key
`k`, if present. -/
def lookupKey (k : String) : FoldMap → Option Dataset
  | [] => none
  | (k', v) :: rest => if k' = k then some v else lookupKey k rest

/-- Python dict assignment `m[k] = v`: replace the entry for `k` (dicts
hold one entry per key), or add it if absent. -/
def setValue : FoldMap → String → Dataset → FoldMap
  | [], k, v => [(k, v)]
  | (k', v') :: rest, k, v =>
      if k' = k then (k, v) :: rest else (k', v') :: setValue rest k v

/-- Row `i` of `np.eye(n)`: the length-`n` vector with `1` at index `i`
and `0` elsewhere. -/
def oneHot (n i : Nat) : List Int :=
  (List.range n).map (fun j => if j = i then 1 else 0)

/-- Accumulator loop behind `np.argmax`: scan the remaining elements
(`x` sits at position `idx`), keeping the index of the first maximum seen
so far (`best`, of value `bestVal`). -/
def argmaxGo : List Int → Nat → Nat → Int → Nat
  | [], _, best, _ => best
  | x :: xs, idx, best, bestVal =>
      if bestVal < x then argmaxGo xs (idx + 1) idx x
      else argmaxGo xs (idx + 1) best bestVal

/-- `np.argmax`: index of the first occurrence of the maximum (0 on the
empty sequence, where numpy would raise; not used on empty input). -/
def argmax : List Int → Nat
  | [] => 0
  | x :: xs => argmaxGo xs 1 0 x

/-- Indexing a single row out of `np.eye(n)`: `np.eye(n)[l]`.  Numpy
accepts `-n <= l < n` (negative indices count from the end) and raises
`IndexError` otherwise. -/
def npEyeRow (n : Nat) (l : Int) : Except PyError (List Int) :=
  if 0 ≤ l ∧ l < (n : Int) then .ok (oneHot n l.toNat)
  else if -(n : Int) ≤ l ∧ l < 0 then .ok (oneHot n (l + (n : Int)).toNat)
  else .error .indexError

/-- Vectorized row gather `np.eye(n)[labels]` for a flat label array:
each label selects its row; any out-of-range label raises `IndexError`.
(The `astype(int).tolist()` that follows in the source is the identity
here because rows are already integral.) -/
def npEyeRows (n : Nat) : List Int → Except PyError (List (List Int))
  | [] => .ok []
  | l :: ls =>
      match npEyeRow n l, npEyeRows n ls with
      | .ok r, .ok rs => .ok (r :: rs)
      | .error e, _ => .error e
      | .ok _, .error e => .error e

/-- Modelled from the spec: `utils.format_dataset_dtype` (module
`chaiverse.dev.utils`, which is not under `src/`) casts the named column
of a dataset to the given dtype ("casts it to a 64-bit integer type" /
"casts the labels column ... to floating-point").  On the integral label
values carried by this model the cast changes only the column's dtype
tag, not its values. -/
def format_dataset_dtype (df : Dataset) (column dtype : String) : Dataset :=
  if column = "labels" then { df with labelsDtype := dtype } else df

/-- Modelled from the spec: `utils.format_dataset_dtype` applied to a
whole fold mapping, as the regression variant does — "casts the labels
column of every fold". -/
def format_dataset_dtype_dict (data : FoldMap) (column dtype : String) : FoldMap :=
  data.map (fun e => (e.1, format_dataset_dtype e.2 column dtype))

/-- `RewardClassificationTrainer._format_one_hot_labels` (lines 134-141):
read the labels as an array, assert that the number of distinct values
(`len(np.unique(labels))`) is at most `num_labels`, gather rows of
`np.eye(num_labels)`, and replace the "labels" column with the resulting
lists of ints (`remove_columns` + `add_column`; the added integral column
carries dtype int64).  The only caller guards on `ndim == 1`, so the
two-dimensional case (whose 3-d gather result is outside this data
model) is unreachable and mapped to an error. -/
def format_one_hot_labels (numLabels : Nat) (df : Dataset) : Except PyError Dataset :=
  match df.labels with
  | .flat labels =>
      if labels.dedup.length ≤ numLabels then
        match npEyeRows numLabels labels with
        | .ok one_hot_labels =>
            .ok { labels := .multi one_hot_labels, labelsDtype := "int64", other := df.other }
        | .error e => .error e
      else .error .assertionError
  | .multi _ => .error .valueError

/-- The loop body of
`RewardClassificationTrainer._format_data_by_training_task` (lines
128-131): iterate over the items of the (copied) fold mapping; for each
fold whose labels are one-dimensional, cast the column to int64 and
replace the fold's entry with the one-hot formatted dataset.  `items` is
the snapshot of entries being iterated; `data` is the current value of
the mapping being assigned into (both start as the shallow copy; keys
are distinct, so iterating the snapshot matches Python's semantics). -/
def classifyFolds (numLabels : Nat) : List (String × Dataset) → FoldMap → Except PyError FoldMap
  | [], data => .ok data
  | (fold, df) :: rest, data =>
      if df.labels.ndim = 1 then
        match format_one_hot_labels numLabels (format_dataset_dtype df "labels" "int64") with
        | .ok df2 => classifyFolds numLabels rest (setValue data fold df2)
        | .error e => .error e
      else classifyFolds numLabels rest data

/-- `RewardClassificationTrainer._format_data_by_training_task` (lines
126-132): `data = copy.copy(data)` (a new mapping with the same
entries), then the per-fold loop, then return the new mapping. -/
def format_data_by_training_task_classification (numLabels : Nat) (data : FoldMap) :
    Except PyError FoldMap :=
  classifyFolds numLabels data data

/-- `RewardRegressionTrainer._format_data_by_training_task` (lines
118-120): cast the "labels" column of every fold to float. -/
def format_data_by_training_task_regression (data : FoldMap) : FoldMap :=
  format_dataset_dtype_dict data "labels" "float"

/-- The constructor arguments of `BaseRewardTrainer.__init__` (lines
15-53), with the source's default values.  `__init__` stores each
argument verbatim in a same-named attribute, so this record is also the
hyperparameter portion of a trainer's state.  `tokenize_loader` is an
opaque collaborator handle; `learning_rate` (a Python float never
computed with here) is carried exactly. -/
structure CtorArgs where
  model_name : String
  tokenize_loader : Nat
  output_dir : String
  num_labels : Nat := 1
  learning_rate : ℚ := 2 / 100000
  num_train_epochs : Nat := 1
  optim : String := "adamw_hf"
  bf16 : Bool := false
  logging_strategy : String := "steps"
  logging_steps : Nat := 50
  eval_strategy : String := "no"
  eval_steps : Option Nat := none
  save_strategy : String := "no"
  save_steps : Option Nat := none
  per_device_batch_size : Nat := 8
  gradient_accumulation_steps : Nat := 1
  train_seed : Nat := 1
  device_map : String := "auto"
deriving DecidableEq

/-- The `TrainingArguments` object built by the `training_config`
property: exactly the keyword arguments passed at lines 94-112. -/
structure TrainingArguments where
  output_dir : String
  learning_rate : ℚ
  num_train_epochs : Nat
  logging_dir : String
  logging_strategy : String
  logging_steps : Nat
  evaluation_strategy : String
  eval_steps : Option Nat
  save_strategy : String
  save_steps : Option Nat
  bf16 : Bool
  optim : String
  logging_first_step : Bool
  seed : Nat
  per_device_train_batch_size : Nat
  per_device_eval_batch_size : Nat
  gradient_accumulation_steps : Nat
deriving DecidableEq

/-- `BaseRewardTrainer.training_config` (lines 92-112): rebuild a
`TrainingArguments` from the stored hyperparameters.  `logging_dir` is
the f-string `f'{self.output_dir}/logs'`; both per-device batch sizes
receive `self.per_device_batch_size`; `logging_first_step` is the
literal `False`. -/
def training_config (t : CtorArgs) : TrainingArguments :=
  { output_dir := t.output_dir
    learning_rate := t.learning_rate
    num_train_epochs := t.num_train_epochs
    logging_dir := t.output_dir ++ "/logs"
    logging_strategy := t.logging_strategy
    logging_steps := t.logging_steps
    evaluation_strategy := t.eval_strategy
    eval_steps := t.eval_steps
    save_strategy := t.save_strategy
    save_steps := t.save_steps
    bf16 := t.bf16
    optim := t.optim
    logging_first_step := false
    seed := t.train_seed
    per_device_train_batch_size := t.per_device_batch_size
    per_device_eval_batch_size := t.per_device_batch_size
    gradient_accumulation_steps := t.gradient_accumulation_steps }

/-- The three classes of the module: the abstract base and its two
concrete variants. -/
inductive TrainerKind where
  | base
  | regression
  | classification
deriving DecidableEq

/-- The training engine (`transformers.Trainer`) as bound at lines
80-86: the keyword arguments it is constructed with.  Model and
tokenizer handles are opaque. -/
structure RewardEngine where
  model : Option String
  args : TrainingArguments
  tokenizer : Option Nat
  train_dataset : Dataset
  eval_dataset : Option Dataset
deriving DecidableEq

/-- A trainer instance: its class, the stored constructor arguments and
the mutable handles set by the lifecycle methods (`self.tokenizer`,
`self.model`, `self.trainer`), absent until assigned. -/
structure TrainerState where
  kind : TrainerKind
  hp : CtorArgs
  tokenizer : Option Nat := none
  model : Option String := none
  trainer : Option RewardEngine := none
deriving DecidableEq

/-- Reading the `training_config` property on an instance: the body
(lines 93-112) only reads attributes, so the access returns the built
configuration and leaves the instance as it was. -/
def training_config_access (s : TrainerState) : TrainingArguments × TrainerState :=
  (training_config s.hp, s)

/-- Calling the class (`BaseRewardTrainer(...)` or a variant):
`BaseRewardTrainer` has `metaclass=ABCMeta` (line 11) and the abstract
method `_format_data_by_training_task` (lines 88-90), so ABCMeta rejects
instantiation of the base class itself with a `TypeError`; the concrete
variants override the hook and instantiate normally, running `__init__`
(which stores the arguments and sets no handles). -/
def instantiate_trainer (kind : TrainerKind) (args : CtorArgs) : Except PyError TrainerState :=
  match kind with
  | .base => .error .typeError
  | .regression => .ok { kind := .regression, hp := args }
  | .classification => .ok { kind := .classification, hp := args }

/-- Dynamic dispatch of `self._format_data_by_training_task(data)`:
the base class body (lines 88-90) raises `NotImplementedError`; the
variants run their formatting. -/
def format_data_by_training_task (kind : TrainerKind) (numLabels : Nat) (data : FoldMap) :
    Except PyError FoldMap :=
  match kind with
  | .base => .error .notImplementedError
  | .regression => .ok (format_data_by_training_task_regression data)
  | .classification => format_data_by_training_task_classification numLabels data

/-- `BaseRewardTrainer.instantiate_reward_trainer` (lines 78-86):
`eval_dataset = data.get('validation', None)`, then build the engine
with `train_dataset=data['train']` (a `KeyError` when the "train" fold
is absent) and store it in `self.trainer`. -/
def instantiate_reward_trainer (s : TrainerState) (data : FoldMap) : Except PyError TrainerState :=
  let eval_dataset := lookupKey "validation" data
  match lookupKey "train" data with
  | some tr =>
      .ok { s with trainer := some ⟨s.model, training_config s.hp, s.tokenizer, tr, eval_dataset⟩ }
  | none => .error .keyError

/-- `BaseRewardTrainer.fit` (lines 55-60): load the tokenizer (opaque
collaborator, modelled as a handle derived from the loader), format the
data by training task, build the model (`instantiate_reward_model`,
lines 70-76 — an opaque external load tagged by the checkpoint name),
bind the training engine, and run the blocking `self.trainer.train()`
(external; no state of this layer is touched by it). -/
def fit (s : TrainerState) (data : FoldMap) : Except PyError TrainerState :=
  let s1 : TrainerState := { s with tokenizer := some s.hp.tokenize_loader }
  match format_data_by_training_task s1.kind s1.hp.num_labels data with
  | .error e => .error e
  | .ok d =>
      let s2 : TrainerState := { s1 with model := some s1.hp.model_name }
      match instantiate_reward_trainer s2 d with
      | .error e => .error e
      | .ok s3 => .ok s3

/-- Using the base trainer type directly: instantiate
`BaseRewardTrainer` and call `fit` on the result. -/
def use_base_directly (args : CtorArgs) (data : FoldMap) : Except PyError TrainerState :=
  match instantiate_trainer .base args with
  | .error e => .error e
  | .ok t => fit t data

/-- Python values of the types a `save(path=...)` caller can pass:
`None`, a string, or an int. -/
inductive PyVal where
  | pynone
  | pystr (s : String)
  | pyint (n : Int)
deriving DecidableEq

/-- Python truthiness of a `PyVal`: `None` is falsy, a string is truthy
iff nonempty, an int is truthy iff nonzero. -/
def PyVal.truthy : PyVal → Bool
  | .pynone => false
  | .pystr s => s != ""
  | .pyint n => n != 0

/-- Python `a or b`: `a` when `a` is truthy, else `b`. -/
def pyOr (a b : PyVal) : PyVal :=
  if a.truthy then a else b

/-- `BaseRewardTrainer.save` (lines 62-64): `save_path = path or
self.output_dir`, then `self.model.save_pretrained(save_path)`.  The
external persistence call is opaque; the function returns the target it
persists to. -/
def save (s : TrainerState) (path : PyVal) : PyVal :=
  pyOr path (.pystr s.hp.output_dir)

/-- A store of Python dict objects, for observing reference semantics of
the fold mapping: addresses are list positions. -/
abbrev Store := List FoldMap

/-- Dereference an address. -/
def Store.read : Store → Nat → Option FoldMap
  | [], _ => none
  | m :: _, 0 => some m
  | _ :: st, a + 1 => Store.read st a

/-- Overwrite the object at a (live) address. -/
def Store.write : Store → Nat → FoldMap → Store
  | [], _, _ => []
  | _ :: st, 0, m => m :: st
  | m0 :: st, a + 1, m => m0 :: Store.write st a m

/-- Allocate a fresh object, returning its address. -/
def Store.alloc (st : Store) (m : FoldMap) : Store × Nat :=
  (st ++ [m], st.length)

/-- The classification formatting loop at the level of dict objects:
each `data[fold] = ...` assignment (line 131) writes through address
`a`, the copy made at line 127.  `items` is the snapshot of entries
iterated over (the dict's keys are distinct, so only values at already
visited keys change during iteration). -/
def classifyFoldsSt (numLabels : Nat) :
    List (String × Dataset) → Store → Nat → Except PyError Store
  | [], st, _ => .ok st
  | (fold, df) :: rest, st, a =>
      if df.labels.ndim = 1 then
        match format_one_hot_labels numLabels (format_dataset_dtype df "labels" "int64") with
        | .ok df2 =>
            match Store.read st a with
            | some m => classifyFoldsSt numLabels rest (Store.write st a (setValue m fold df2)) a
            | none => .error .keyError
        | .error e => .error e
      else classifyFoldsSt numLabels rest st a

/-- `RewardClassificationTrainer._format_data_by_training_task` at the
level of dict objects: read the caller's mapping at `addr`, allocate the
shallow copy (`data = copy.copy(data)`, line 127 — a new dict holding
the same fold-name -> table entries), run the loop writing into the
copy, and return the copy's address. -/
def format_data_by_training_task_classification_st (numLabels : Nat) (st : Store) (addr : Nat) :
    Except PyError (Store × Nat) :=
  match Store.read st addr with
  | none => .error .keyError
  | some data =>
      let p := Store.alloc st data
      match classifyFoldsSt numLabels data p.1 p.2 with
      | .ok st2 => .ok (st2, p.2)
      | .error e => .error e

/-- Sample constructor arguments (a checkpoint name, a loader handle and
an output directory; the remaining options at their defaults). -/
def sampleArgs : CtorArgs :=
  { model_name := "gpt2", tokenize_loader := 0, output_dir := "out" }

/-- A freshly constructed classification trainer. -/
def sampleState : TrainerState :=
  { kind := .classification, hp := sampleArgs }

/-- The same trainer after its model handle has been set. -/
def sampleStateLoaded : TrainerState :=
  { kind := .classification, hp := sampleArgs, model := some "gpt2" }

/-- A fold with flat labels `[0, 1]`. -/
def dfTrain : Dataset := ⟨.flat [0, 1], "float", 7⟩

/-- A fold whose labels are already one-hot. -/
def dfOneHot : Dataset := ⟨.multi [[1, 0]], "float", 8⟩

/-- A fold with flat labels `[0, 2, 1]`. -/
def df021 : Dataset := ⟨.flat [0, 2, 1], "float", 3⟩

/-- A fold with flat labels `[0, 1, 2]`. -/
def df012 : Dataset := ⟨.flat [0, 1, 2], "float", 4⟩

/-- A fold with flat labels `[0, 2]`: two distinct values, one of them
out of range for two classes. -/
def df02 : Dataset := ⟨.flat [0, 2], "float", 5⟩

/-- A fold mapping with a flat-labelled "train" fold and an already
one-hot "validation" fold. -/
def sampleFolds : FoldMap := [("train", dfTrain), ("validation", dfOneHot)]

/-- What classification formatting with two labels makes of
`sampleFolds`: the "train" fold one-hot expanded, the "validation" fold
untouched. -/
def sampleFoldsFormatted : FoldMap :=
  [("train", ⟨.multi [[1, 0], [0, 1]], "int64", 7⟩), ("validation", dfOneHot)]

/-- A fold mapping with only a "train" fold. -/
def sampleFoldsT : FoldMap := [("train", dfTrain)]

/-- A fold mapping lacking a "train" fold. -/
def sampleFoldsV : FoldMap := [("validation", dfOneHot)]

/-! ## Lemmas about the fold-mapping dictionary operations -/

theorem lookupKey_setValue_self (m : FoldMap) (k : String) (v : Dataset) :
    lookupKey k (setValue m k v) = some v := by
  induction m with
  | nil => simp [setValue, lookupKey]
  | cons e rest ih =>
      obtain ⟨k', v'⟩ := e
      by_cases h : k' = k
      · subst h; simp [setValue, lookupKey]
      · simp [setValue, lookupKey, h, ih]

theorem lookupKey_setValue_ne (m : FoldMap) (k k' : String) (v : Dataset) (h : k' ≠ k) :
    lookupKey k (setValue m k' v) = lookupKey k m := by
  induction m with
  | nil => simp [setValue, lookupKey, h]
  | cons e rest ih =>
      obtain ⟨k0, v0⟩ := e
      by_cases h0 : k0 = k'
      · subst h0; simp [setValue, lookupKey, h]
      · by_cases hk : k0 = k
        · subst hk; simp [setValue, lookupKey, h0]
        · simp [setValue, lookupKey, h0, hk, ih]

theorem lookupKey_of_mem_nodup {m : FoldMap} {k : String} {v : Dataset}
    (hnd : (m.map Prod.fst).Nodup) (hm : (k, v) ∈ m) :
    lookupKey k m = some v := by
  induction m with
  | nil => cases hm
  | cons e rest ih =>
      obtain ⟨k0, v0⟩ := e
      rw [List.map_cons, List.nodup_cons] at hnd
      rcases List.mem_cons.mp hm with h | h
      · cases h; simp [lookupKey]
      · have hk : k0 ≠ k := by
          intro he
          subst he
          exact hnd.1 (List.mem_map.mpr ⟨(k0, v), h, rfl⟩)
        rw [lookupKey, if_neg hk]
        exact ih hnd.2 h

theorem lookupKey_eq_none_of_not_mem {m : FoldMap} {k : String}
    (h : k ∉ m.map Prod.fst) : lookupKey k m = none := by
  induction m with
  | nil => rfl
  | cons e rest ih =>
      obtain ⟨k0, v0⟩ := e
      rw [List.map_cons, List.mem_cons] at h
      push_neg at h
      rw [lookupKey, if_neg (fun he => h.1 he.symm)]
      exact ih h.2

/-! ## Lemmas about one-hot rows and argmax -/

theorem oneHot_length (n i : Nat) : (oneHot n i).length = n := by
  simp [oneHot]

theorem argmaxGo_le (xs : List Int) : ∀ (idx best : Nat) (bv : Int),
    (∀ x ∈ xs, x ≤ bv) → argmaxGo xs idx best bv = best := by
  induction xs with
  | nil => intro idx best bv _; rfl
  | cons x xs ih =>
      intro idx best bv h
      have hx : ¬ bv < x := not_lt.mpr (h x (List.mem_cons_self x xs))
      rw [argmaxGo, if_neg hx]
      exact ih _ _ _ (fun y hy => h y (List.mem_cons_of_mem _ hy))

theorem argmaxGo_zeros (m : Nat) : ∀ (k idx best : Nat),
    argmaxGo (List.replicate k 0 ++ 1 :: List.replicate m 0) idx best 0 = idx + k := by
  intro k
  induction k with
  | zero =>
      intro idx best
      rw [List.replicate_zero, List.nil_append, argmaxGo,
        if_pos (by norm_num : (0 : Int) < 1),
        argmaxGo_le _ _ _ _ (fun x hx => by rw [List.eq_of_mem_replicate hx]; norm_num)]
      omega
  | succ k ih =>
      intro idx best
      rw [List.replicate_succ, List.cons_append, argmaxGo, if_neg (lt_irrefl (0 : Int)),
        ih (idx + 1) best]
      omega

theorem oneHot_decomp : ∀ (n i : Nat), i < n →
    oneHot n i = List.replicate i 0 ++ 1 :: List.replicate (n - i - 1) 0 := by
  intro n
  induction n with
  | zero => intro i h; exact absurd h (Nat.not_lt_zero i)
  | succ n ih =>
      intro i hi
      rw [oneHot, List.range_succ_eq_map, List.map_cons, List.map_map]
      cases i with
      | zero =>
          rw [if_pos rfl, List.replicate_zero, List.nil_append]
          have htail : (List.range n).map ((fun j => if j = 0 then (1 : Int) else 0) ∘ Nat.succ)
              = List.replicate n 0 := by
            refine List.eq_replicate_iff.mpr ⟨by simp, ?_⟩
            intro b hb
            obtain ⟨j, _, hj⟩ := List.mem_map.mp hb
            simp only [Function.comp] at hj
            rw [if_neg (Nat.succ_ne_zero j)] at hj
            omega
          rw [htail, (by omega : n + 1 - 0 - 1 = n)]
      | succ i =>
          have hin : i < n := Nat.lt_of_succ_lt_succ hi
          have htail : (List.range n).map ((fun j => if j = i + 1 then (1 : Int) else 0) ∘ Nat.succ)
              = oneHot n i := by
            rw [oneHot]
            apply List.map_congr_left
            intro j _
            simp only [Function.comp]
            by_cases hji : j = i
            · subst hji; rw [if_pos rfl, if_pos rfl]
            · rw [if_neg (by omega), if_neg hji]
          have harith : n + 1 - (i + 1) - 1 = n - i - 1 := by omega
          rw [if_neg (by omega : ¬ (0 = i + 1)), htail, ih i hin, harith,
            List.replicate_succ, List.cons_append]

theorem argmax_oneHot {n i : Nat} (h : i < n) : argmax (oneHot n i) = i := by
  cases i with
  | zero =>
      rw [oneHot_decomp n 0 h, List.replicate_zero, List.nil_append, argmax]
      exact argmaxGo_le _ _ _ _ (fun x hx => by rw [List.eq_of_mem_replicate hx]; norm_num)
  | succ i =>
      rw [oneHot_decomp n (i + 1) h, List.replicate_succ, List.cons_append, argmax,
        argmaxGo_zeros]
      omega

/-! ## Lemmas about distinct-label counting and the eye gather -/

theorem dedup_length_le {ls : List Int} {n : Nat}
    (h : ∀ l ∈ ls, 0 ≤ l ∧ l < (n : Int)) : ls.dedup.length ≤ n := by
  have hnd : ls.dedup.Nodup := ls.nodup_dedup
  have hsub : ls.dedup.toFinset ⊆ Finset.Icc (0 : Int) ((n : Int) - 1) := by
    intro x hx
    rw [List.mem_toFinset] at hx
    have hx' := h x (List.mem_dedup.mp hx)
    rw [Finset.mem_Icc]
    omega
  have h1 : ls.dedup.toFinset.card = ls.dedup.length := List.toFinset_card_of_nodup hnd
  have h2 := Finset.card_le_card hsub
  rw [h1, Int.card_Icc] at h2
  omega

theorem npEyeRows_ok {n : Nat} {ls : List Int} (h : ∀ l ∈ ls, 0 ≤ l ∧ l < (n : Int)) :
    npEyeRows n ls = .ok (ls.map fun l => oneHot n l.toNat) := by
  induction ls with
  | nil => rfl
  | cons l ls ih =>
      have hrow : npEyeRow n l = .ok (oneHot n l.toNat) := by
        rw [npEyeRow, if_pos (h l (List.mem_cons_self l ls))]
      rw [List.map_cons, npEyeRows, hrow, ih (fun y hy => h y (List.mem_cons_of_mem _ hy))]

theorem format_dataset_dtype_labels (df : Dataset) (dt : String) :
    format_dataset_dtype df "labels" dt = { df with labelsDtype := dt } := by
  simp [format_dataset_dtype]

theorem format_one_hot_ok {n : Nat} {df : Dataset} {ls : List Int}
    (hflat : df.labels = .flat ls) (h : ∀ l ∈ ls, 0 ≤ l ∧ l < (n : Int)) :
    format_one_hot_labels n df =
      .ok { labels := .multi (ls.map fun l => oneHot n l.toNat),
            labelsDtype := "int64", other := df.other } := by
  obtain ⟨lab, dt0, o⟩ := df
  simp only at hflat
  subst hflat
  rw [format_one_hot_labels]
  simp only
  rw [if_pos (dedup_length_le h), npEyeRows_ok h]

theorem format_one_hot_assert {n : Nat} {df : Dataset} {ls : List Int}
    (hflat : df.labels = .flat ls) (h : n < ls.dedup.length) :
    format_one_hot_labels n df = .error .assertionError := by
  obtain ⟨lab, dt0, o⟩ := df
  simp only at hflat
  subst hflat
  rw [format_one_hot_labels]
  simp only
  rw [if_neg (not_le.mpr h)]

theorem format_one_hot_multi {n : Nat} {df0 df2 : Dataset}
    (h : format_one_hot_labels n df0 = .ok df2) : ∃ rows, df2.labels = .multi rows := by
  obtain ⟨lab, dt, o⟩ := df0
  cases lab with
  | flat ls =>
      rw [format_one_hot_labels] at h
      simp only at h
      by_cases hd : ls.dedup.length ≤ n
      · rw [if_pos hd] at h
        cases hrows : npEyeRows n ls with
        | ok rows =>
            rw [hrows] at h
            cases h
            exact ⟨rows, rfl⟩
        | error e0 => rw [hrows] at h; cases h
      · rw [if_neg hd] at h; cases h
  | multi rows => rw [format_one_hot_labels] at h; cases h

/-! ## Lemmas about the classification formatting loop -/

theorem classifyFolds_untouched {n : Nat} {k : String} :
    ∀ {items : List (String × Dataset)} {data m' : FoldMap},
      classifyFolds n items data = .ok m' → k ∉ items.map Prod.fst →
      lookupKey k m' = lookupKey k data := by
  intro items
  induction items with
  | nil =>
      intro data m' h _
      rw [classifyFolds] at h
      cases h
      rfl
  | cons e rest ih =>
      obtain ⟨fold, df⟩ := e
      intro data m' h hk
      rw [List.map_cons, List.mem_cons] at hk
      push_neg at hk
      by_cases hdim : df.labels.ndim = 1
      · rw [classifyFolds, if_pos hdim] at h
        cases hfo : format_one_hot_labels n (format_dataset_dtype df "labels" "int64") with
        | ok df2 =>
            rw [hfo] at h
            rw [ih h hk.2, lookupKey_setValue_ne _ _ _ _ (fun he => hk.1 he.symm)]
        | error e0 => rw [hfo] at h; cases h
      · rw [classifyFolds, if_neg hdim] at h
        exact ih h hk.2

theorem classifyFolds_multi_id {n : Nat} :
    ∀ {items : List (String × Dataset)} {data m' : FoldMap},
      (items.map Prod.fst).Nodup → classifyFolds n items data = .ok m' →
      ∀ {k : String} {df : Dataset}, (k, df) ∈ items → df.labels.ndim ≠ 1 →
      lookupKey k m' = lookupKey k data := by
  intro items
  induction items with
  | nil => intro data m' _ _ k df hmem; cases hmem
  | cons e rest ih =>
      obtain ⟨fold0, df0⟩ := e
      intro data m' hnd h k df hmem hdim
      rw [List.map_cons, List.nodup_cons] at hnd
      rcases List.mem_cons.mp hmem with hh | ht
      · obtain ⟨hk, hdf⟩ := Prod.mk.injEq .. ▸ hh
        subst hk
        subst hdf
        rw [classifyFolds, if_neg hdim] at h
        exact classifyFolds_untouched h hnd.1
      · have hkf : fold0 ≠ k := by
          intro he
          subst he
          exact hnd.1 (List.mem_map.mpr ⟨(fold0, df), ht, rfl⟩)
        by_cases hdim0 : df0.labels.ndim = 1
        · rw [classifyFolds, if_pos hdim0] at h
          cases hfo : format_one_hot_labels n (format_dataset_dtype df0 "labels" "int64") with
          | ok df2 =>
              rw [hfo] at h
              rw [ih hnd.2 h ht hdim, lookupKey_setValue_ne _ _ _ _ hkf]
          | error e0 => rw [hfo] at h; cases h
        · rw [classifyFolds, if_neg hdim0] at h
          exact ih hnd.2 h ht hdim

theorem classifyFolds_flat {n : Nat} :
    ∀ {items : List (String × Dataset)} {data m' : FoldMap},
      (items.map Prod.fst).Nodup → classifyFolds n items data = .ok m' →
      ∀ {k : String} {df : Dataset}, (k, df) ∈ items → df.labels.ndim = 1 →
      ∃ df2, format_one_hot_labels n (format_dataset_dtype df "labels" "int64") = .ok df2 ∧
        lookupKey k m' = some df2 := by
  intro items
  induction items with
  | nil => intro data m' _ _ k df hmem; cases hmem
  | cons e rest ih =>
      obtain ⟨fold0, df0⟩ := e
      intro data m' hnd h k df hmem hdim
      rw [List.map_cons, List.nodup_cons] at hnd
      rcases List.mem_cons.mp hmem with hh | ht
      · obtain ⟨hk, hdf⟩ := Prod.mk.injEq .. ▸ hh
        subst hk
        subst hdf
        rw [classifyFolds, if_pos hdim] at h
        cases hfo : format_one_hot_labels n (format_dataset_dtype df "labels" "int64") with
        | ok df2 =>
            rw [hfo] at h
            refine ⟨df2, rfl, ?_⟩
            rw [classifyFolds_untouched h hnd.1, lookupKey_setValue_self]
        | error e0 => rw [hfo] at h; cases h
      · by_cases hdim0 : df0.labels.ndim = 1
        · rw [classifyFolds, if_pos hdim0] at h
          cases hfo : format_one_hot_labels n (format_dataset_dtype df0 "labels" "int64") with
          | ok df2 =>
              rw [hfo] at h
              exact ih hnd.2 h ht hdim
          | error e0 => rw [hfo] at h; cases h
        · rw [classifyFolds, if_neg hdim0] at h
          exact ih hnd.2 h ht hdim

theorem classifyFolds_fails {n : Nat} :
    ∀ {items : List (String × Dataset)} (data : FoldMap) {k : String} {df : Dataset} {e : PyError},
      (k, df) ∈ items → df.labels.ndim = 1 →
      format_one_hot_labels n (format_dataset_dtype df "labels" "int64") = .error e →
      ∃ e2, classifyFolds n items data = .error e2 := by
  intro items
  induction items with
  | nil => intro data k df e hmem; cases hmem
  | cons e0 rest ih =>
      obtain ⟨fold0, df0⟩ := e0
      intro data k df e hmem hdim hfo
      rcases List.mem_cons.mp hmem with hh | ht
      · obtain ⟨hk, hdf⟩ := Prod.mk.injEq .. ▸ hh
        subst hk
        subst hdf
        refine ⟨e, ?_⟩
        rw [classifyFolds, if_pos hdim, hfo]
      · by_cases hdim0 : df0.labels.ndim = 1
        · cases hfo0 : format_one_hot_labels n (format_dataset_dtype df0 "labels" "int64") with
          | ok df2 =>
              obtain ⟨e2, h2⟩ := ih (setValue data fold0 df2) ht hdim hfo
              refine ⟨e2, ?_⟩
              rw [classifyFolds, if_pos hdim0, hfo0]
              exact h2
          | error e0' =>
              refine ⟨e0', ?_⟩
              rw [classifyFolds, if_pos hdim0, hfo0]
        · obtain ⟨e2, h2⟩ := ih data ht hdim hfo
          refine ⟨e2, ?_⟩
          rw [classifyFolds, if_neg hdim0]
          exact h2

/-! ## Lemmas about the object store -/

theorem Store.read_lt_length : ∀ {st : Store} {a : Nat} {m : FoldMap},
    Store.read st a = some m → a < st.length := by
  intro st
  induction st with
  | nil => intro a m h; cases h
  | cons m0 st ih =>
      intro a m h
      cases a with
      | zero => exact Nat.succ_pos _
      | succ a =>
          rw [Store.read] at h
          exact Nat.succ_lt_succ (ih h)

theorem Store.read_write_self : ∀ {st : Store} {a : Nat} (m : FoldMap),
    a < st.length → Store.read (Store.write st a m) a = some m := by
  intro st
  induction st with
  | nil => intro a m h; cases h
  | cons m0 st ih =>
      intro a m h
      cases a with
      | zero => rfl
      | succ a => exact ih m (Nat.lt_of_succ_lt_succ h)

theorem Store.read_write_ne : ∀ {st : Store} {a b : Nat} (m : FoldMap),
    b ≠ a → Store.read (Store.write st a m) b = Store.read st b := by
  intro st
  induction st with
  | nil => intro a b m _; cases a <;> rfl
  | cons m0 st ih =>
      intro a b m hne
      cases a with
      | zero => cases b with
          | zero => exact absurd rfl hne
          | succ b => rfl
      | succ a => cases b with
          | zero => rfl
          | succ b => exact ih m (fun he => hne (congrArg Nat.succ he))

theorem Store.length_write : ∀ (st : Store) (a : Nat) (m : FoldMap),
    (Store.write st a m).length = st.length := by
  intro st
  induction st with
  | nil => intro a m; rfl
  | cons m0 st ih =>
      intro a m
      cases a with
      | zero => rfl
      | succ a => exact congrArg Nat.succ (ih a m)

theorem Store.read_append_left : ∀ {st : Store} (l : Store) {a : Nat},
    a < st.length → Store.read (st ++ l) a = Store.read st a := by
  intro st
  induction st with
  | nil => intro l a h; cases h
  | cons m0 st ih =>
      intro l a h
      cases a with
      | zero => rfl
      | succ a => exact ih l (Nat.lt_of_succ_lt_succ h)

theorem Store.read_append_self : ∀ (st : Store) (m : FoldMap),
    Store.read (st ++ [m]) st.length = some m := by
  intro st
  induction st with
  | nil => intro m; rfl
  | cons m0 st ih => intro m; exact ih m

theorem classifyFoldsSt_spec (n : Nat) :
    ∀ (items : List (String × Dataset)) (st : Store) (a : Nat) (acc : FoldMap),
      Store.read st a = some acc →
      (∀ e, classifyFolds n items acc = .error e → classifyFoldsSt n items st a = .error e) ∧
      (∀ m', classifyFolds n items acc = .ok m' →
        ∃ st2, classifyFoldsSt n items st a = .ok st2 ∧ Store.read st2 a = some m' ∧
          st2.length = st.length ∧ ∀ b, b ≠ a → Store.read st2 b = Store.read st b) := by
  intro items
  induction items with
  | nil =>
      intro st a acc hread
      constructor
      · intro e he; rw [classifyFolds] at he; cases he
      · intro m' hm
        rw [classifyFolds] at hm
        cases hm
        exact ⟨st, rfl, hread, rfl, fun b _ => rfl⟩
  | cons e0 rest ih =>
      obtain ⟨fold, df⟩ := e0
      intro st a acc hread
      by_cases hdim : df.labels.ndim = 1
      · cases hfo : format_one_hot_labels n (format_dataset_dtype df "labels" "int64") with
        | error er =>
            constructor
            · intro e2 he2
              rw [classifyFolds, if_pos hdim, hfo] at he2
              cases he2
              rw [classifyFoldsSt, if_pos hdim, hfo]
            · intro m' hm'
              rw [classifyFolds, if_pos hdim, hfo] at hm'
              cases hm'
        | ok df2 =>
            have ha : a < st.length := Store.read_lt_length hread
            have hw : Store.read (Store.write st a (setValue acc fold df2)) a
                = some (setValue acc fold df2) := Store.read_write_self _ ha
            have ihs := ih (Store.write st a (setValue acc fold df2)) a (setValue acc fold df2) hw
            constructor
            · intro e2 he2
              rw [classifyFolds, if_pos hdim, hfo] at he2
              rw [classifyFoldsSt, if_pos hdim, hfo, hread]
              exact ihs.1 e2 he2
            · intro m' hm'
              rw [classifyFolds, if_pos hdim, hfo] at hm'
              obtain ⟨st2, h1, h2, h3, h4⟩ := ihs.2 m' hm'
              refine ⟨st2, ?_, h2, ?_, ?_⟩
              · rw [classifyFoldsSt, if_pos hdim, hfo, hread]
                exact h1
              · rw [h3, Store.length_write]
              · intro b hb
                rw [h4 b hb, Store.read_write_ne _ hb]
      · have ihs := ih st a acc hread
        constructor
        · intro e2 he2
          rw [classifyFolds, if_neg hdim] at he2
          rw [classifyFoldsSt, if_neg hdim]
          exact ihs.1 e2 he2
        · intro m' hm'
          rw [classifyFolds, if_neg hdim] at hm'
          obtain ⟨st2, h1, h2, h3, h4⟩ := ihs.2 m' hm'
          refine ⟨st2, ?_, h2, h3, h4⟩
          rw [classifyFoldsSt, if_neg hdim]
          exact h1

/-! ## The claims -/

/-- Claim C1: for every fold whose "labels" column is a flat sequence
with every label in `{0, ..., num_labels - 1}`, classification
formatting (when it yields an output mapping) replaces that fold's
column with one-hot vectors of length `num_labels` whose argmax equals
the original label. -/
theorem classification_one_hot_formatting
    (n : Nat) (data : FoldMap) (fold : String) (df : Dataset) (ls : List Int) (m' : FoldMap)
    (hnd : (data.map Prod.fst).Nodup)
    (hmem : (fold, df) ∈ data)
    (hflat : df.labels = .flat ls)
    (hrange : ∀ l ∈ ls, 0 ≤ l ∧ l < (n : Int))
    (hok : format_data_by_training_task_classification n data = .ok m') :
    lookupKey fold m' = some { labels := .multi (ls.map fun l => oneHot n l.toNat),
                               labelsDtype := "int64", other := df.other }
    ∧ ∀ l ∈ ls, (oneHot n l.toNat).length = n ∧ ((argmax (oneHot n l.toNat) : Int) = l) := by
  have hdim : df.labels.ndim = 1 := by rw [hflat]; rfl
  rw [format_data_by_training_task_classification] at hok
  obtain ⟨df2, hfo, hlk⟩ := classifyFolds_flat hnd hok hmem hdim
  have hcast : (format_dataset_dtype df "labels" "int64").labels = .flat ls := by
    rw [format_dataset_dtype_labels]
    exact hflat
  have hfo2 := format_one_hot_ok hcast hrange
  rw [hfo] at hfo2
  simp only [format_dataset_dtype_labels] at hfo2
  injection hfo2 with h2
  subst h2
  refine ⟨hlk, ?_⟩
  intro l hl
  have hr := hrange l hl
  have hlt : l.toNat < n := by omega
  refine ⟨oneHot_length n l.toNat, ?_⟩
  rw [argmax_oneHot hlt]
  omega

/-- Witness for C1: with `num_labels = 3` and a "train" fold of labels
`[0, 2, 1]`, classification formatting yields exactly
`[[1,0,0],[0,0,1],[0,1,0]]`. -/
theorem classification_one_hot_formatting_w :
    format_data_by_training_task_classification 3 [("train", df021)]
      = .ok [("train", ⟨.multi [[1, 0, 0], [0, 0, 1], [0, 1, 0]], "int64", 3⟩)]
    ∧ lookupKey "train" [("train", (⟨.multi [[1, 0, 0], [0, 0, 1], [0, 1, 0]], "int64", 3⟩ : Dataset))]
      = some ⟨.multi [[1, 0, 0], [0, 0, 1], [0, 1, 0]], "int64", 3⟩ := by
  constructor
  · rfl
  · exact (classification_one_hot_formatting 3 [("train", df021)] "train" df021 [0, 2, 1]
      [("train", ⟨.multi [[1, 0, 0], [0, 0, 1], [0, 1, 0]], "int64", 3⟩)]
      (by decide) (by decide) rfl (by decide) rfl).1

/-- Claim C2: a fold whose flat "labels" column holds more than
`num_labels` distinct values trips the fatal assertion
(`len(np.unique(labels)) <= num_labels`), and the classification
formatting call produces no output mapping. -/
theorem classification_cardinality_assertion
    (n : Nat) (data : FoldMap) (fold : String) (df : Dataset) (ls : List Int)
    (hmem : (fold, df) ∈ data)
    (hflat : df.labels = .flat ls)
    (hcard : n < ls.dedup.length) :
    format_one_hot_labels n (format_dataset_dtype df "labels" "int64") = .error .assertionError
    ∧ ∀ m', format_data_by_training_task_classification n data ≠ .ok m' := by
  have hdim : df.labels.ndim = 1 := by rw [hflat]; rfl
  have hcast : (format_dataset_dtype df "labels" "int64").labels = .flat ls := by
    rw [format_dataset_dtype_labels]
    exact hflat
  have hfo := format_one_hot_assert hcast hcard
  refine ⟨hfo, ?_⟩
  intro m' hm'
  rw [format_data_by_training_task_classification] at hm'
  obtain ⟨e2, h2⟩ := classifyFolds_fails data hmem hdim hfo
  rw [h2] at hm'
  cases hm'

/-- Witness for C2: with `num_labels = 2` and a "train" fold of labels
`[0, 1, 2]` (three distinct values), the assertion fires and formatting
returns the assertion failure, not an output. -/
theorem classification_cardinality_assertion_w :
    format_one_hot_labels 2 (format_dataset_dtype df012 "labels" "int64") = .error .assertionError
    ∧ format_data_by_training_task_classification 2 [("train", df012)]
        = .error .assertionError := by
  have h := classification_cardinality_assertion 2 [("train", df012)] "train" df012 [0, 1, 2]
    (by decide) rfl (by decide)
  exact ⟨h.1, rfl⟩

/-- Claim C5: a fold whose "labels" column is already multi-dimensional
is passed through classification formatting unchanged — the result
mapping holds the very same table (same labels, same dtype, same other
columns). -/
theorem classification_multi_identity
    (n : Nat) (data : FoldMap) (fold : String) (df : Dataset) (rows : List (List Int))
    (m' : FoldMap)
    (hnd : (data.map Prod.fst).Nodup)
    (hmem : (fold, df) ∈ data)
    (hmulti : df.labels = .multi rows)
    (hok : format_data_by_training_task_classification n data = .ok m') :
    lookupKey fold m' = some df := by
  have hdim : df.labels.ndim ≠ 1 := by rw [hmulti]; simp [Labels.ndim]
  rw [format_data_by_training_task_classification] at hok
  rw [classifyFolds_multi_id hnd hok hmem hdim]
  exact lookupKey_of_mem_nodup hnd hmem

/-- Witness for C5: formatting `sampleFolds` with two labels expands the
"train" fold but returns the "validation" fold's table unchanged. -/
theorem classification_multi_identity_w :
    format_data_by_training_task_classification 2 sampleFolds = .ok sampleFoldsFormatted
    ∧ lookupKey "validation" sampleFoldsFormatted = some dfOneHot := by
  refine ⟨rfl, ?_⟩
  exact classification_multi_identity 2 sampleFolds "validation" dfOneHot [[1, 0]]
    sampleFoldsFormatted (by decide) (by decide) rfl rfl

/-- Claim C6: passing the cardinality assertion does not guarantee
one-hot expansion succeeds — labels `[0, 2]` with `num_labels = 2` have
only two distinct values, yet indexing `np.eye(2)` with `2` is out of
range, so formatting raises `IndexError` (not the assertion). -/
theorem classification_assertion_insufficient :
    (([0, 2] : List Int).dedup.length ≤ 2)
    ∧ format_one_hot_labels 2 (format_dataset_dtype df02 "labels" "int64") = .error .indexError
    ∧ format_data_by_training_task_classification 2 [("train", df02)] = .error .indexError := by
  refine ⟨by decide, rfl, rfl⟩

/-- Counterexample to C3 as stated: instantiating the base trainer type
and calling fit on it does not surface `NotImplementedError` from the
formatting hook — ABCMeta already rejects the instantiation with a
`TypeError` (the class has an unoverridden abstract method), so the
claimed error never occurs. -/
theorem base_trainer_notimplemented_cex :
    use_base_directly sampleArgs [] = .error .typeError
    ∧ PyError.typeError ≠ PyError.notImplementedError :=
  ⟨rfl, by decide⟩

/-- Claim C3 (amended): using the base trainer type directly fails
rather than silently proceeding — instantiation itself is rejected by
ABCMeta with a `TypeError` because the formatting hook is abstract, and
the hook's own body (hence `fit` on any base-kind instance) raises
`NotImplementedError`. -/
theorem base_trainer_use_fails (args : CtorArgs) (data : FoldMap) (s : TrainerState)
    (hk : s.kind = .base) :
    use_base_directly args data = .error .typeError
    ∧ fit s data = .error .notImplementedError := by
  obtain ⟨kind, hp, tk, mdl, tr⟩ := s
  simp only at hk
  subst hk
  exact ⟨rfl, rfl⟩

/-- Witness for C3 (amended): concrete arguments and data. -/
theorem base_trainer_use_fails_w :
    use_base_directly sampleArgs [("train", dfTrain)] = .error .typeError
    ∧ fit { kind := .base, hp := sampleArgs } [("train", dfTrain)]
        = .error .notImplementedError :=
  base_trainer_use_fails sampleArgs [("train", dfTrain)] { kind := .base, hp := sampleArgs } rfl

/-- Claim C4: classification formatting never mutates the caller's fold
mapping object.  At the store level: the call allocates a fresh mapping
(`a' ≠ addr`), the caller's object still holds exactly its old entries,
and the returned mapping agrees with the pure formatting result — each
unchanged (already multi-dimensional) fold still holds the caller's
original table value, and each modified (flat) fold holds a new table
different from the original. -/
theorem classification_no_caller_mutation
    (n : Nat) (st : Store) (addr : Nat) (data : FoldMap) (st' : Store) (a' : Nat)
    (hread : Store.read st addr = some data)
    (hok : format_data_by_training_task_classification_st n st addr = .ok (st', a')) :
    a' ≠ addr
    ∧ Store.read st' addr = some data
    ∧ ∃ m', Store.read st' a' = some m'
        ∧ format_data_by_training_task_classification n data = .ok m'
        ∧ (∀ fold df rows, (data.map Prod.fst).Nodup → (fold, df) ∈ data →
             df.labels = .multi rows → lookupKey fold m' = some df)
        ∧ (∀ fold df ls, (data.map Prod.fst).Nodup → (fold, df) ∈ data →
             df.labels = .flat ls → lookupKey fold m' ≠ some df) := by
  have haddr : addr < st.length := Store.read_lt_length hread
  rw [format_data_by_training_task_classification_st, hread] at hok
  simp only [Store.alloc] at hok
  have hread1 : Store.read (st ++ [data]) st.length = some data := Store.read_append_self st data
  have hspec := classifyFoldsSt_spec n data (st ++ [data]) st.length data hread1
  cases hcf : classifyFolds n data data with
  | error e =>
      rw [hspec.1 e hcf] at hok
      cases hok
  | ok m' =>
      obtain ⟨st2, h1, h2, h3, h4⟩ := hspec.2 m' hcf
      rw [h1] at hok
      injection hok with hpair
      obtain ⟨hst, ha⟩ := Prod.mk.injEq .. ▸ hpair
      subst hst
      subst ha
      have hne : st.length ≠ addr := by omega
      refine ⟨hne, ?_, m', h2, ?_, ?_, ?_⟩
      · rw [h4 addr (fun he => hne he.symm), Store.read_append_left _ haddr]
        exact hread
      · rw [format_data_by_training_task_classification]
        exact hcf
      · intro fold df rows hnd hmem hm
        have hdim : df.labels.ndim ≠ 1 := by rw [hm]; simp [Labels.ndim]
        rw [classifyFolds_multi_id hnd hcf hmem hdim]
        exact lookupKey_of_mem_nodup hnd hmem
      · intro fold df ls hnd hmem hfl heq
        have hdim : df.labels.ndim = 1 := by rw [hfl]; rfl
        obtain ⟨df2, hfo, hlk⟩ := classifyFolds_flat hnd hcf hmem hdim
        rw [hlk] at heq
        injection heq with hdf
        obtain ⟨rows, hrows⟩ := format_one_hot_multi hfo
        rw [hdf, hfl] at hrows
        cases hrows

/-- Witness for C4: a store holding one two-fold mapping; the call
allocates address 1, leaves the caller's mapping at address 0 intact,
and keeps the already one-hot "validation" table while replacing the
flat "train" table. -/
theorem classification_no_caller_mutation_w :
    (1 : Nat) ≠ 0
    ∧ Store.read [sampleFolds, sampleFoldsFormatted] 0 = some sampleFolds
    ∧ lookupKey "validation" sampleFoldsFormatted = some dfOneHot
    ∧ lookupKey "train" sampleFoldsFormatted ≠ some dfTrain := by
  have h := classification_no_caller_mutation 2 [sampleFolds] 0 sampleFolds
    [sampleFolds, sampleFoldsFormatted] 1 rfl rfl
  obtain ⟨h1, h2, m', hm, hpure, hmulti, hflat⟩ := h
  have hm'eq : m' = sampleFoldsFormatted := by
    have hv : Store.read [sampleFolds, sampleFoldsFormatted] 1 = some sampleFoldsFormatted := rfl
    rw [hm] at hv
    injection hv
  subst hm'eq
  exact ⟨h1, h2,
    hmulti "validation" dfOneHot [[1, 0]] (by decide) (by decide) rfl,
    hflat "train" dfTrain [0, 1] (by decide) (by decide) rfl⟩

/-- Claim C7: the `training_config` property is pure and deterministic —
an access returns the instance unchanged, two instances with the same
stored hyperparameters yield equal configurations, and each field of the
configuration is derived from the corresponding stored hyperparameter. -/
theorem training_config_pure (s t : TrainerState) (h : s.hp = t.hp) :
    (training_config_access s).2 = s
    ∧ (training_config_access s).1 = (training_config_access t).1
    ∧ (training_config_access s).1 =
      { output_dir := s.hp.output_dir
        learning_rate := s.hp.learning_rate
        num_train_epochs := s.hp.num_train_epochs
        logging_dir := s.hp.output_dir ++ "/logs"
        logging_strategy := s.hp.logging_strategy
        logging_steps := s.hp.logging_steps
        evaluation_strategy := s.hp.eval_strategy
        eval_steps := s.hp.eval_steps
        save_strategy := s.hp.save_strategy
        save_steps := s.hp.save_steps
        bf16 := s.hp.bf16
        optim := s.hp.optim
        logging_first_step := false
        seed := s.hp.train_seed
        per_device_train_batch_size := s.hp.per_device_batch_size
        per_device_eval_batch_size := s.hp.per_device_batch_size
        gradient_accumulation_steps := s.hp.gradient_accumulation_steps } := by
  refine ⟨rfl, ?_, rfl⟩
  show training_config s.hp = training_config t.hp
  rw [h]

/-- Witness for C7: the same hyperparameters with and without a loaded
model handle give the same configuration, and the access does not change
the instance. -/
theorem training_config_pure_w :
    (training_config_access sampleState).2 = sampleState
    ∧ (training_config_access sampleState).1 = (training_config_access sampleStateLoaded).1 := by
  have h := training_config_pure sampleState sampleStateLoaded rfl
  exact ⟨h.1, h.2.1⟩

/-- Claim C8: the built training configuration applies the single
`per_device_batch_size` argument identically as the per-device train and
eval batch sizes. -/
theorem batch_size_applied_to_train_and_eval (t : CtorArgs) :
    (training_config t).per_device_train_batch_size = t.per_device_batch_size
    ∧ (training_config t).per_device_eval_batch_size = t.per_device_batch_size :=
  ⟨rfl, rfl⟩

/-- Claim C9: `instantiate_reward_trainer` binds the engine to the
"train" fold as train dataset and to the "validation" fold (when
present; `None` when absent) as eval dataset, storing the engine on the
instance; a mapping lacking a "train" fold makes the call fail with a
lookup (KeyError) error. -/
theorem instantiate_reward_trainer_binding (s : TrainerState) (data : FoldMap) :
    (∀ tr, lookupKey "train" data = some tr →
      instantiate_reward_trainer s data =
        .ok { s with trainer := some ⟨s.model, training_config s.hp, s.tokenizer, tr,
                                      lookupKey "validation" data⟩ })
    ∧ ("validation" ∉ data.map Prod.fst → lookupKey "validation" data = none)
    ∧ (lookupKey "train" data = none → instantiate_reward_trainer s data = .error .keyError) := by
  refine ⟨?_, fun h => lookupKey_eq_none_of_not_mem h, ?_⟩
  · intro tr htr
    rw [instantiate_reward_trainer, htr]
  · intro hn
    rw [instantiate_reward_trainer, hn]

/-- Witness for C9: a mapping with both folds, one with only "train",
and one lacking "train". -/
theorem instantiate_reward_trainer_binding_w :
    instantiate_reward_trainer sampleState sampleFolds =
      .ok { sampleState with
            trainer := some ⟨none, training_config sampleArgs, none, dfTrain, some dfOneHot⟩ }
    ∧ instantiate_reward_trainer sampleState sampleFoldsT =
      .ok { sampleState with
            trainer := some ⟨none, training_config sampleArgs, none, dfTrain, none⟩ }
    ∧ instantiate_reward_trainer sampleState sampleFoldsV = .error .keyError := by
  have h1 := (instantiate_reward_trainer_binding sampleState sampleFolds).1 dfTrain rfl
  have h2 := (instantiate_reward_trainer_binding sampleState sampleFoldsT).1 dfTrain rfl
  have h3 := (instantiate_reward_trainer_binding sampleState sampleFoldsV).2.2 rfl
  exact ⟨h1, h2, h3⟩

/-- Claim C10: the fallback in `save` is truthiness-based — every falsy
path argument (None, the empty string, the int 0) makes `save` persist
to the configured output directory, and a truthy path argument is used
as the save target itself. -/
theorem save_truthiness (s : TrainerState) (path : PyVal) :
    (path.truthy = false → save s path = .pystr s.hp.output_dir)
    ∧ (path.truthy = true → save s path = path) := by
  constructor
  · intro h; simp [save, pyOr, h]
  · intro h; simp [save, pyOr, h]

/-- Witness for C10: `None`, `""` and `0` all fall back to the
configured output directory "out"; a nonempty string is used as the
target. -/
theorem save_truthiness_w :
    save sampleState .pynone = .pystr "out"
    ∧ save sampleState (.pystr "") = .pystr "out"
    ∧ save sampleState (.pyint 0) = .pystr "out"
    ∧ save sampleState (.pystr "elsewhere") = .pystr "elsewhere" := by
  refine ⟨?_, ?_, ?_, ?_⟩
  · exact (save_truthiness sampleState .pynone).1 rfl
  · exact (save_truthiness sampleState (.pystr "")).1 (by decide)
  · exact (save_truthiness sampleState (.pyint 0)).1 (by decide)
  · exact (save_truthiness sampleState (.pystr "elsewhere")).2 (by decide)

end Chaiverse
